import Mathlib

/-!
Verification development for the drone-tree-config resolution core
(`plugin/plugin.go`).  The Go code is shallowly embedded: pure string
manipulation (trimming, the `"..."`-stripping `strings.ReplaceAll`, the
`(?ms)(---[\s]*){2,}` separator-collapsing regex, `path.Join`) is
re-implemented as executable Lean functions over `List Char`, and the SCM
collaborator (`go-scm` client) is modelled as an oracle record of pure
functions.  Stateful loops (`getScmConfigData`'s walk over changed files)
become fuel-indexed recursions threading an explicit state record; the
state additionally carries ghost fields (`trace`, `appended`) recording
which candidate paths were passed to fetch-and-validate and which
fragments were appended, so that invariants about the request can be
stated.  Go `(value, error)` pairs become `_ × Option Err`.
-/

namespace DroneTreeConfig

/-- Errors surfaced by the resolution core, mirroring the distinct `error`
values produced in `plugin.go`. -/
inductive Err where
  /-- `getScmFile` failed: content fetch error or "is not a file". -/
  | fetchFail (msg : String)
  /-- `yaml.Unmarshal` failed in `getScmDroneConfig`. -/
  | parseFail (msg : String)
  /-- `strconv.Atoi` on the pull-request id failed. -/
  | atoiErr
  /-- an SCM list call (`Git.ListChanges`, `PullRequests.ListChanges`,
  directory `Contents.Find`) failed. -/
  | scmFail (msg : String)
  /-- `errors.New(...)` on an arbitrary string (used by the stubbed
  `getAllConfigData`, line 267). -/
  | generic (msg : String)
  /-- `errors.New("did not find a .drone.yml")` in `Find` (line 107). -/
  | notFound
deriving DecidableEq

/-- Result of `Find` (the `Resolve` entry point): either a final config
document or an error, mirroring `(*drone.Config, error)`. -/
inductive FindRes where
  | config (data : String)
  | fail (e : Err)
deriving DecidableEq

/-! ### Go string helpers used by the source -/

/-- Go `strings.HasPrefix`, via the character lists underlying the strings. -/
def strStartsWith (s pre : String) : Bool :=
  pre.data.isPrefixOf s.data

/-- Go `strings.HasSuffix`. -/
def strEndsWith (s suf : String) : Bool :=
  suf.data.isSuffixOf s.data

/-- Go `strings.Trim s cutset`: remove leading and trailing characters
belonging to `cutset`. -/
def goTrim (s cutset : String) : String :=
  String.mk (((s.data.dropWhile (cutset.data.contains ·)).reverse.dropWhile
    (cutset.data.contains ·)).reverse)

/-- Split a character list on `'/'` (Go `strings.Split(s, "/")`), the
accumulator holding the current component reversed. -/
def splitSlashAux : List Char → List Char → List (List Char)
  | [], cur => [cur.reverse]
  | '/' :: t, cur => cur.reverse :: splitSlashAux t []
  | c :: t, cur => splitSlashAux t (c :: cur)

/-- Go `strings.Split(s, "/")`. -/
def splitSlashStr (s : String) : List String :=
  (splitSlashAux s.data []).map String.mk

/-- Digit-string accumulator for `strconv.Atoi`. -/
def digitsValAux : List Char → Nat → Option Nat
  | [], acc => some acc
  | c :: t, acc =>
    if c.isDigit then digitsValAux t (acc * 10 + (c.toNat - 48)) else none

/-- Parse a non-empty all-digit character list. -/
def digitsVal (l : List Char) : Option Nat :=
  if l.isEmpty then none else digitsValAux l 0

/-- Go `strconv.Atoi` (sign and digits; the `int` range check is irrelevant
for the pull-request ids this code parses). -/
def goAtoi (s : String) : Option Int :=
  match s.data with
  | '+' :: ds => (digitsVal ds).map (fun n => Int.ofNat n)
  | '-' :: ds => (digitsVal ds).map (fun n => -(Int.ofNat n))
  | ds => (digitsVal ds).map (fun n => Int.ofNat n)

/-! ### Go `path.Clean` / `path.Join` -/

/-- The component-processing core of Go `path.Clean`: drop empty and `"."`
components, let `".."` pop the last kept component (at the root it is
dropped; in a relative path with nothing to pop it is kept). -/
def cleanComps : List (List Char) → Bool → List (List Char) → List (List Char)
  | [], _, stack => stack.reverse
  | c :: rest, rooted, stack =>
    if c.isEmpty || c = ['.'] then cleanComps rest rooted stack
    else if c = ['.', '.'] then
      match stack with
      | top :: s2 =>
        if top = ['.', '.'] then cleanComps rest rooted (c :: stack)
        else cleanComps rest rooted s2
      | [] =>
        if rooted then cleanComps rest rooted []
        else cleanComps rest rooted [c]
    else cleanComps rest rooted (c :: stack)

/-- Rebuild a path body from components, `'/'`-separated. -/
def joinComps : List (List Char) → List Char
  | [] => []
  | [c] => c
  | c :: rest => c ++ '/' :: joinComps rest

/-- Go `path.Clean`. -/
def goPathClean (s : String) : String :=
  if s = "" then "."
  else
    let cs := s.data
    let rooted := cs.head? = some '/'
    let body := joinComps (cleanComps (splitSlashAux cs []) rooted [])
    if rooted then String.mk ('/' :: body)
    else if body = [] then "." else String.mk body

/-- Go `path.Join` restricted to the two-element form used by the source
(`path.Join(dir, "..")`, `path.Join(dir, req.Repo.Config)`). -/
def goPathJoin (a b : String) : String :=
  if a = "" && b = "" then ""
  else if a = "" then goPathClean b
  else if b = "" then goPathClean a
  else goPathClean (a ++ "/" ++ b)

/-! ### The cleanup pass of `Find` (lines 110–112) -/

/-- Go `strings.ReplaceAll(s, "...", "")` (line 111), specialised to its
fixed pattern: left-to-right, non-overlapping removal of `"..."`. -/
def replaceDots : List Char → List Char
  | '.' :: '.' :: '.' :: t => replaceDots t
  | c :: t => c :: replaceDots t
  | [] => []

/-- Whether a character list contains three consecutive dots. -/
def hasDots3 : List Char → Bool
  | [] => false
  | c :: t => (c == '.' && dots2 t) || hasDots3 t
where
  /-- Whether a character list starts with two dots. -/
  dots2 : List Char → Bool
    | c :: d :: _ => c == '.' && d == '.'
    | _ => false

/-- Go regexp `\s` character class: `[\t\n\f\r ]`. -/
def wsChar (c : Char) : Bool :=
  c == ' ' || c == '\t' || c == '\n' || c == '\r' || c == Char.ofNat 12

/-- One repetition `---[\s]*` of `dedupRegex` (line 55): consume `"---"`
then greedily consume whitespace; `none` if the list does not start with
`"---"`. -/
def sepRep : List Char → Option (List Char)
  | '-' :: '-' :: '-' :: t => some (t.dropWhile wsChar)
  | _ => none

/-- Greedily count repetitions of `---[\s]*`, returning the count and the
rest of the input (fuelled; each repetition consumes at least three
characters, so `l.length` fuel is always enough). -/
def sepReps : Nat → List Char → Nat × List Char
  | 0, l => (0, l)
  | fuel + 1, l =>
    match sepRep l with
    | none => (0, l)
    | some rest =>
      let p := sepReps fuel rest
      (p.1 + 1, p.2)

/-- `dedupRegex.ReplaceAll(s, "---")` (line 112) for the pattern
`(?ms)(---[\s]*){2,}`: scan left to right; at each position take the
greedy repetition count, and on a match of two or more repetitions emit a
single `"---"` and resume after the match (fuelled; each step consumes at
least one character). -/
def dedupScanAux : Nat → List Char → List Char
  | 0, l => l
  | _ + 1, [] => []
  | fuel + 1, c :: t =>
    let p := sepReps (c :: t).length (c :: t)
    if p.1 ≥ 2 then '-' :: '-' :: '-' :: dedupScanAux fuel p.2
    else c :: dedupScanAux fuel t

/-- `dedupRegex.ReplaceAll(s, "---")`. -/
def dedupScan (l : List Char) : List Char :=
  dedupScanAux l.length l

/-- The `"..."`-stripping half of the cleanup on its own (line 111). -/
def stripDots (s : String) : String :=
  String.mk (replaceDots s.data)

/-- The full cleanup pass of `Find` (lines 110–112): strip `"..."`
everywhere, then collapse separator runs. -/
def goCleanup (s : String) : String :=
  String.mk (dedupScan (replaceDots s.data))

/-- Count of non-overlapping occurrences of `"---"` in a character list
(used to count the separator-delimited documents of a merged output). -/
def countTripleDash : List Char → Nat
  | '-' :: '-' :: '-' :: t => 1 + countTripleDash t
  | _ :: t => countTripleDash t
  | [] => 0

/-- Count of non-overlapping `"---"` occurrences in a string. -/
def countSeps (s : String) : Nat :=
  countTripleDash s.data

/-! ### `droneConfigAppend` (lines 293–307) -/

/-- `droneConfigAppend`: trim each fragment of spaces and newlines, skip it
if then empty, otherwise prefix a `"---\n"` separator unless already
present, concatenate, and ensure a trailing newline. -/
def droneConfigAppend (dc : String) (appends : List String) : String :=
  appends.foldl
    (fun acc a0 =>
      let a1 := goTrim a0 " \n"
      if a1 = "" then acc
      else
        let a2 := if strStartsWith a1 "---\n" then a1 else "---\n" ++ a1
        let acc2 := acc ++ a2
        if strEndsWith acc2 "\n" then acc2 else acc2 ++ "\n")
    dc

/-! ### Data model: build event, request, plugin configuration, SCM oracle -/

/-- The build-event fields the core reads (`req.Build.Trigger`, `.Ref`,
`.Before`, `.After`). -/
structure Build where
  trigger : String
  ref : String
  before : String
  after : String
deriving DecidableEq

/-- The request fields the core reads: the build event and the
repository-configured config basename (`req.Repo.Config`). -/
structure Req where
  build : Build
  repoConfig : String
deriving DecidableEq

/-- The plugin configuration (`plugin` struct fields used by the
resolution logic; `server`/`token` only build the HTTP client and are out
of scope). -/
structure PluginCfg where
  concat : Bool
  fallback : Bool
  maxDepth : Int
deriving DecidableEq

/-- Abstract outcome of fetching a candidate path and running
`yaml.Unmarshal` on its content: the file is absent (or not a regular
file), its content fails to parse, or it parses with the given leading
`name`/`kind` fields and raw content. -/
inductive FetchOutcome where
  | absent (msg : String)
  | parseError (msg : String)
  | parsed (name kind content : String)
deriving DecidableEq

/-- The SCM collaborator, as an oracle of pure functions (one resolution
request fetches each path at a fixed revision, so a function model is
adequate).  `contents` models `Contents.Find` on a file followed by
`yaml.Unmarshal`; `dirFind` models `Contents.Find` on a directory
(returning the raw `ls.Data` bytes). -/
structure Oracle where
  prChanges : Int → List String × Option Err
  gitChanges : String → List String × Option Err
  contents : String → FetchOutcome
  dirFind : String → String × Option Err

/-- Ghost record of an SCM change-listing call made by `getScmChanges`:
which API was invoked and with which argument. -/
inductive ScmCall where
  | pr (id : Int)
  | git (ref : String)
deriving DecidableEq

/-! ### `getScmDroneConfig` (lines 182–203) -/

/-- `getScmDroneConfig`: fetch a candidate and validate it, returning the
Go triple `(configData, critical, err)`.  Mirrors the source exactly: on a
fetch failure `("", false, err)`; on a `yaml.Unmarshal` failure
`("", true, err)`; when `name` or `kind` is empty `("", true, err)` where
`err` is the `nil` left over from the successful `Unmarshal` (line 198);
otherwise the raw content with no error. -/
def getScmDroneConfig (fo : FetchOutcome) : String × Bool × Option Err :=
  match fo with
  | .absent msg => ("", false, some (.fetchFail msg))
  | .parseError msg => ("", true, some (.parseFail msg))
  | .parsed name kind content =>
    if name = "" || kind = "" then ("", true, none)
    else (content, false, none)

/-! ### `getScmConfigData` (lines 206–248) -/

/-- State threaded through the changed-file walks: the accumulated
`configData`, the dedup `cache` (Go `map[string]bool`, modelled as the
list of keys), and two ghost fields — `trace`, the candidate paths passed
to `getScmDroneConfig` in order, and `appended`, the fragments passed to
`droneConfigAppend`. -/
structure WalkSt where
  acc : String
  cache : List String
  trace : List String
  appended : List String
deriving DecidableEq

/-- The empty per-request state. -/
def initWalkSt : WalkSt := ⟨"", [], [], []⟩

/-- The inner `for !done` loop of `getScmConfigData` for one changed file,
one fuel unit per iteration (the source loop walks a rooted path to `"/"`,
so `dir.length + 2` fuel always suffices).  Each iteration mirrors lines
217–245: compute `done`, step `dir` to its parent, join the config
basename, skip cache hits, record and fetch the candidate, abort on a
critical error, skip non-critical errors, append, and in non-concat mode
break out of the walk. -/
def walkFile (concat : Bool) (contents : String → FetchOutcome)
    (cfgName : String) : Nat → String → WalkSt → Option Err × WalkSt
  | 0, _, st => (none, st)
  | fuel + 1, dir, st =>
    let done := dir == "/"
    let dir1 := goPathJoin dir ".."
    let cand := goPathJoin dir1 cfgName
    if cand ∈ st.cache then
      if done then (none, st)
      else walkFile concat contents cfgName fuel dir1 st
    else
      let st1 : WalkSt :=
        { st with cache := cand :: st.cache, trace := st.trace ++ [cand] }
      match getScmDroneConfig (contents cand) with
      | (_, critical, some e) =>
        if critical then (some e, st1)
        else if done then (none, st1)
        else walkFile concat contents cfgName fuel dir1 st1
      | (content, _, none) =>
        let st2 : WalkSt :=
          { st1 with acc := droneConfigAppend st1.acc [content],
                     appended := st1.appended ++ [content] }
        if !concat then (none, st2)
        else if done then (none, st2)
        else walkFile concat contents cfgName fuel dir1 st2

/-- The outer loop of `getScmConfigData` over the changed files: root each
path (line 211) and run its walk, stopping the whole request on a critical
error. -/
def scmConfigLoop (concat : Bool) (contents : String → FetchOutcome)
    (cfgName : String) : List String → WalkSt → Option Err × WalkSt
  | [], st => (none, st)
  | file :: rest, st =>
    let file1 := if strStartsWith file "/" then file else "/" ++ file
    match walkFile concat contents cfgName (file1.length + 2) file1 st with
    | (some e, st1) => (some e, st1)
    | (none, st1) => scmConfigLoop concat contents cfgName rest st1

/-- `getScmConfigData`: Go returns `(configData, err)`, with `configData`
reset to `""` on the critical-error return (line 234). -/
def getScmConfigData (concat : Bool) (contents : String → FetchOutcome)
    (cfgName : String) (changedFiles : List String) : String × Option Err :=
  match scmConfigLoop concat contents cfgName changedFiles initWalkSt with
  | (some e, _) => ("", some e)
  | (none, st) => (st.acc, none)

/-! ### `getAllConfigData` (lines 251–289) -/

/-- `getAllConfigData`, exactly as in the source: `Contents.Find` on the
directory (propagating its error), then the depth check returning
`("", nil)` beyond `maxDepth`, and then — the recursive scan being
commented out ("TODO this will always crash …") — the unconditional
`return configData, err2` with `err2 := errors.New(string(ls.Data))`. -/
def getAllConfigData (p : PluginCfg) (o : Oracle) (dir : String)
    (depth : Int) : String × Option Err :=
  match o.dirFind dir with
  | (_, some e) => ("", some e)
  | (lsData, none) =>
    if depth > p.maxDepth then ("", none)
    else ("", some (.generic lsData))

/-! ### `getScmChanges` (lines 118–165) -/

/-- The tail of `getScmChanges` (lines 158–164): a non-empty list is
returned as-is, an empty one becomes the `nil` sentinel.  The ghost third
component carries the SCM calls made. -/
def scmFinish (files : List String) (calls : List ScmCall) :
    Option (List String) × Option Err × List ScmCall :=
  if files.length > 0 then (some files, none, calls)
  else (none, none, calls)

/-- `getScmChanges`: cron builds short-circuit with an empty list (hence
the `nil` sentinel); pull-request refs parse the id from the ref and use
the pull-request diff API; otherwise the code computes `before` (zero or
empty `Before` becomes `After + "~1"`, lines 142–145) but — the compare
API being unavailable in the SCM library (TODO, line 147) — calls
`Git.ListChanges` with only `req.Build.After`.  Returns
`(changedFiles-or-nil, err)` plus the ghost call trace. -/
def getScmChanges (o : Oracle) (b : Build) :
    Option (List String) × Option Err × List ScmCall :=
  if b.trigger == "@cron" then
    scmFinish [] []
  else if strStartsWith b.ref "refs/pull/" then
    match goAtoi ((splitSlashStr b.ref).getD 2 "") with
    | none => (none, some .atoiErr, [])
    | some id =>
      match o.prChanges id with
      | (_, some e) => (none, some e, [.pr id])
      | (files, none) => scmFinish files [.pr id]
  else
    match o.gitChanges b.after with
    | (_, some e) => (none, some e, [.git b.after])
    | (files, none) => scmFinish files [.git b.after]

/-- The `before` revision computed (but not passed to any SCM call) by
`getScmChanges`, lines 142–145. -/
def beforeRef (b : Build) : String :=
  if b.before = "0000000000000000000000000000000000000000" || b.before = ""
  then b.after ++ "~1" else b.before

/-! ### `Find` (lines 58–115) -/

/-- `Find`, the `Resolve` entry point, minus the SCM client construction
and logging: get the changed files; on a non-`nil` list resolve via the
ancestor-path walks, otherwise full-scan for cron builds or when fallback
is enabled; fail with `notFound` when no data was collected; and finally
run the cleanup pass. -/
def find (p : PluginCfg) (o : Oracle) (rq : Req) : FindRes :=
  match getScmChanges o rq.build with
  | (_, some e, _) => .fail e
  | (changedOpt, none, _) =>
    let r : String × Option Err :=
      match changedOpt with
      | some files => getScmConfigData p.concat o.contents rq.repoConfig files
      | none =>
        if rq.build.trigger == "@cron" then getAllConfigData p o "/" 0
        else if p.fallback then getAllConfigData p o "/" 0
        else ("", none)
    match r with
    | (_, some e) => .fail e
    | (configData, none) =>
      if configData = "" then .fail .notFound
      else .config (goCleanup configData)

/-! ## Helper lemmas on the cleanup pass -/

/-- Unfolding equation for `replaceDots` on a cons cell whose head does not
begin an occurrence of `"..."`. -/
theorem replaceDots_cons (c : Char) (t : List Char)
    (h : ¬(c = '.' ∧ hasDots3.dots2 t = true)) :
    replaceDots (c :: t) = c :: replaceDots t := by
  rw [replaceDots.eq_def]
  split
  · rename_i t' heq
    injection heq with h1 h2
    subst h1
    exact absurd ⟨rfl, by subst h2; simp [hasDots3.dots2]⟩ h
  · rename_i c2 t2 heq
    injection heq with h1 h2
    subst h1; subst h2; rfl
  · rename_i heq; exact absurd heq (by simp)

/-- A list headed by a non-dot character does not start with two dots. -/
theorem dots2_cons_of_ne {b : Char} (t : List Char) (hb : b ≠ '.') :
    hasDots3.dots2 (b :: t) = false := by
  cases t <;> simp [hasDots3.dots2, hb]

/-- A list starting with two dots is literally `'.' :: '.' :: _`. -/
theorem dots2_true {t : List Char} (hd : hasDots3.dots2 t = true) :
    ∃ t1, t = '.' :: '.' :: t1 := by
  match t with
  | [] => simp [hasDots3.dots2] at hd
  | [a] => simp [hasDots3.dots2] at hd
  | a :: b :: t1 =>
    simp [hasDots3.dots2] at hd
    obtain ⟨ha, hb⟩ := hd
    subst ha; subst hb
    exact ⟨t1, rfl⟩

/-- Stripping preserves "does not start with two dots": the head of the
output of `replaceDots` cannot begin two dots unless the input did. -/
theorem dots2_replaceDots (t : List Char) (h : hasDots3.dots2 t = false) :
    hasDots3.dots2 (replaceDots t) = false := by
  match t with
  | [] => rfl
  | [a] =>
    rw [replaceDots_cons a [] (by simp [hasDots3.dots2])]
    rfl
  | a :: b :: t3 =>
    by_cases ha : a = '.'
    · subst ha
      have hb : b ≠ '.' := by
        intro hb; subst hb; simp [hasDots3.dots2] at h
      rw [replaceDots_cons '.' (b :: t3) (by simp [dots2_cons_of_ne t3 hb])]
      by_cases hb3 : (b = '.' ∧ hasDots3.dots2 t3 = true)
      · exact absurd hb3.1 hb
      · rw [replaceDots_cons b t3 hb3]
        simp [hasDots3.dots2, hb]
    · rw [replaceDots_cons a (b :: t3) (by simp [ha])]
      exact dots2_cons_of_ne _ ha

/-- The output of the `"..."`-stripping pass never contains three
consecutive dots: left-to-right non-overlapping removal leaves every
maximal dot run shorter than three. -/
theorem hasDots3_replaceDots (l : List Char) :
    hasDots3 (replaceDots l) = false := by
  induction l using replaceDots.induct with
  | case1 t ih => rw [replaceDots]; exact ih
  | case2 c t h ih =>
    have hnd : ¬(c = '.' ∧ hasDots3.dots2 t = true) := by
      rintro ⟨hc, hd⟩
      obtain ⟨t1, rfl⟩ := dots2_true hd
      exact h t1 hc rfl
    rw [replaceDots_cons c t hnd, hasDots3, ih]
    simp only [Bool.or_false]
    by_cases hc : c = '.'
    · subst hc
      have hdt : hasDots3.dots2 t = false := by
        cases hdt : hasDots3.dots2 t
        · rfl
        · exact absurd ⟨rfl, hdt⟩ hnd
      simp [dots2_replaceDots t hdt]
    · simp [hc]
  | case3 => rfl

/-- A list with no three consecutive dots is a fixpoint of the stripping
pass. -/
theorem replaceDots_fix {l : List Char} (h : hasDots3 l = false) :
    replaceDots l = l := by
  induction l using replaceDots.induct with
  | case1 t ih => simp [hasDots3, hasDots3.dots2] at h
  | case2 c t h2 ih =>
    have hnd : ¬(c = '.' ∧ hasDots3.dots2 t = true) := by
      rintro ⟨hc, hd⟩
      obtain ⟨t1, rfl⟩ := dots2_true hd
      exact h2 t1 hc rfl
    rw [hasDots3] at h
    rw [replaceDots_cons c t hnd, ih (by
      cases hht : hasDots3 t
      · rfl
      · rw [hht, Bool.or_true] at h; exact absurd h (by simp))]
  | case3 => rfl

/-- The `"..."`-stripping pass is idempotent on character lists. -/
theorem replaceDots_idem (l : List Char) :
    replaceDots (replaceDots l) = replaceDots l :=
  replaceDots_fix (hasDots3_replaceDots l)

/-! ## Helper lemmas on the changed-file walk -/

/-- Invariant of the per-request walk state: the fetched candidates are
pairwise distinct, and every fetched candidate is in the cache. -/
def WalkInv (st : WalkSt) : Prop :=
  st.trace.Nodup ∧ ∀ x ∈ st.trace, x ∈ st.cache

/-- The empty state satisfies the invariant. -/
theorem walkInv_init : WalkInv initWalkSt :=
  ⟨List.nodup_nil, by simp [initWalkSt]⟩

/-- Fetching an uncached candidate (recording it in both cache and trace)
preserves the invariant. -/
theorem walkInv_addFetch {st : WalkSt} (h : WalkInv st) {cand : String}
    (hc : cand ∉ st.cache) :
    WalkInv { st with cache := cand :: st.cache,
                      trace := st.trace ++ [cand] } := by
  obtain ⟨hn, hs⟩ := h
  constructor
  · simp only [List.nodup_append, List.nodup_cons, List.nodup_nil]
    refine ⟨hn, by simp, ?_⟩
    intro x hx
    simp only [List.mem_singleton]
    intro hxc
    subst hxc
    exact hc (hs x hx)
  · intro x hx
    simp only [List.mem_append, List.mem_singleton] at hx
    rcases hx with hx | hx
    · exact List.mem_cons_of_mem _ (hs x hx)
    · subst hx; exact List.mem_cons_self _ _

/-- One changed file's walk preserves the invariant: a candidate is only
fetched after a cache miss, and is then immediately cached. -/
theorem walkFile_inv (concat : Bool) (contents : String → FetchOutcome)
    (cfgName : String) :
    ∀ (fuel : Nat) (dir : String) (st : WalkSt), WalkInv st →
      WalkInv (walkFile concat contents cfgName fuel dir st).2 := by
  intro fuel
  induction fuel with
  | zero => intro dir st h; simpa [walkFile] using h
  | succ n ih =>
    intro dir st h
    rw [walkFile]
    by_cases hmem : goPathJoin (goPathJoin dir "..") cfgName ∈ st.cache
    · simp only [hmem, if_true]
      split
      · exact h
      · exact ih _ _ h
    · simp only [hmem, if_false]
      have h1 := walkInv_addFetch h hmem
      split
      · split
        · exact h1
        · split
          · exact h1
          · exact ih _ _ h1
      · split
        · exact ⟨h1.1, h1.2⟩
        · split
          · exact ⟨h1.1, h1.2⟩
          · exact ih _ _ ⟨h1.1, h1.2⟩

/-- The loop over all changed files preserves the invariant. -/
theorem scmConfigLoop_inv (concat : Bool) (contents : String → FetchOutcome)
    (cfgName : String) :
    ∀ (files : List String) (st : WalkSt), WalkInv st →
      WalkInv (scmConfigLoop concat contents cfgName files st).2 := by
  intro files
  induction files with
  | nil => intro st h; simpa [scmConfigLoop] using h
  | cons file rest ih =>
    intro st h
    rw [scmConfigLoop]
    have hw := walkFile_inv concat contents cfgName
      ((if strStartsWith file "/" then file else "/" ++ file).length + 2)
      (if strStartsWith file "/" then file else "/" ++ file) st h
    split
    · rename_i e st1 heq
      have hst : st1 = (walkFile concat contents cfgName
          ((if strStartsWith file "/" then file else "/" ++ file).length + 2)
          (if strStartsWith file "/" then file else "/" ++ file) st).2 := by
        rw [heq]
      rw [hst]; exact hw
    · rename_i st1 heq
      have hst : st1 = (walkFile concat contents cfgName
          ((if strStartsWith file "/" then file else "/" ++ file).length + 2)
          (if strStartsWith file "/" then file else "/" ++ file) st).2 := by
        rw [heq]
      exact ih st1 (hst ▸ hw)

/-! ## Concrete fixtures for the scenario claims -/

/-- An oracle on which every SCM call fails; the per-claim oracles below
override the fields a scenario exercises. -/
def baseOracle : Oracle :=
  { prChanges := fun _ => ([], some (.scmFail "pr")),
    gitChanges := fun _ => ([], some (.scmFail "git")),
    contents := fun _ => .absent "404",
    dirFind := fun _ => ("", some (.scmFail "dir")) }

/-- A plain push build event with a non-zero before revision. -/
def buildPush : Build := ⟨"push", "refs/heads/m", "b0", "a"⟩

/-- A scheduled (cron) build event. -/
def buildCron : Build := ⟨"@cron", "refs/heads/m", "b0", "a"⟩

/-- Changed files `a/x.go` and `b/y.go`; valid configs at `/a/.drone.yml`
(content `A`) and `/b/.drone.yml` (content `B`); no root config. -/
def oracleC1 : Oracle :=
  { baseOracle with
    gitChanges := fun r =>
      if r = "a" then (["a/x.go", "b/y.go"], none)
      else ([], some (.scmFail "git")),
    contents := fun pth =>
      if pth = "/a/.drone.yml" then .parsed "na" "p" "A"
      else if pth = "/b/.drone.yml" then .parsed "nb" "p" "B"
      else .absent "404" }

/-- One changed file `a/x.go`; `/a/.drone.yml` parses but has an empty
`kind`; a valid root config `/.drone.yml` with content `R`. -/
def oracleC2 : Oracle :=
  { baseOracle with
    gitChanges := fun r =>
      if r = "a" then (["a/x.go"], none) else ([], some (.scmFail "git")),
    contents := fun pth =>
      if pth = "/a/.drone.yml" then .parsed "foo" "" "MALFORMED"
      else if pth = "/.drone.yml" then .parsed "r" "p" "R"
      else .absent "404" }

/-- A directory listing of the repository root that succeeds. -/
def oracleC3 : Oracle :=
  { baseOracle with
    dirFind := fun d =>
      if d = "/" then ("LISTING", none) else ("", some (.scmFail "dir")) }

/-- A diff listing returning one changed file for any revision. -/
def oracleC4 : Oracle :=
  { baseOracle with gitChanges := fun _ => (["f.go"], none) }

/-- A push build whose before revision is present and non-zero. -/
def buildC4 : Build := ⟨"push", "refs/heads/m", "beforehash", "afterhash"⟩

/-- A diff listing that succeeds with an empty changed-file list. -/
def oracleEmptyDiff : Oracle :=
  { baseOracle with gitChanges := fun _ => ([], none) }

/-- The C8 scenario: changed files `a/b/x.go` and `a/y.go`, valid configs
at `/a/b/.pipeline.yml` (content `AB`) and `/a/.pipeline.yml` (content
`A2`), no root config. -/
def oracleC8 : Oracle :=
  { baseOracle with
    gitChanges := fun r =>
      if r = "aft" then (["a/b/x.go", "a/y.go"], none)
      else ([], some (.scmFail "git")),
    contents := fun pth =>
      if pth = "/a/b/.pipeline.yml" then .parsed "nab" "p" "AB"
      else if pth = "/a/.pipeline.yml" then .parsed "na" "p" "A2"
      else .absent "404" }

/-- The C8 build and request. -/
def reqC8 : Req := ⟨⟨"push", "refs/heads/m", "bef", "aft"⟩, ".pipeline.yml"⟩

/-! ## Claims -/

/-- Claim C1, counterexample: with concat disabled, changed files
`a/x.go` and `b/y.go`, valid configs at `/a/.drone.yml` and
`/b/.drone.yml`, `Resolve` returns a document with TWO `---`-separated
configs — the `break` of line 243 only leaves the inner walk, so further
changed files are still processed, contradicting "exactly one
configuration document" and "no further changed files are processed". -/
theorem c1_single_doc_counterexample :
    find ⟨false, false, 2⟩ oracleC1 ⟨buildPush, ".drone.yml"⟩
      = .config "---\nA\n---\nB\n" ∧
    countSeps "---\nA\n---\nB\n" = 2 := by decide

/-- Claim C1, amended: when concat mode is disabled, each changed file's
walk merges at most one fragment (it breaks after its first successful
fetch-and-validate), but subsequent changed files are still processed, so
the result may hold one document per changed file. -/
theorem c1_nonconcat_walk_appends_at_most_one
    (contents : String → FetchOutcome) (cfgName : String) :
    ∀ (fuel : Nat) (dir : String) (st : WalkSt),
      ((walkFile false contents cfgName fuel dir st).2).appended.length ≤
        st.appended.length + 1 := by
  intro fuel
  induction fuel with
  | zero => intro dir st; simp [walkFile]
  | succ n ih =>
    intro dir st
    rw [walkFile]
    by_cases hmem : goPathJoin (goPathJoin dir "..") cfgName ∈ st.cache
    · simp only [hmem, if_true]
      split
      · exact Nat.le_succ _
      · exact ih _ _
    · simp only [hmem, if_false]
      split
      · split
        · exact Nat.le_succ _
        · split
          · exact Nat.le_succ _
          · exact ih _ _
      · simp only [Bool.not_false, if_true]
        simp [List.length_append]

/-- Claim C2: a candidate that parses but lacks `kind` is reported with
`critical = true` yet a `nil` error (line 198 returns the stale `err`), so
the caller's `err != nil` guard never fires: the malformed candidate is
silently skipped and resolution succeeds with the root config instead of
aborting. -/
theorem c2_missing_kind_not_critical_bug :
    getScmDroneConfig (.parsed "foo" "" "MALFORMED") = ("", true, none) ∧
    find ⟨true, false, 2⟩ oracleC2 ⟨buildPush, ".drone.yml"⟩
      = .config "---\nR\n" := by decide

/-- Claim C3: the fallback scanner is a stub — even when the directory
listing succeeds and the depth bound is not exceeded it returns an error
built from the raw listing (line 267, the recursive scan being commented
out), never a merged document; only the beyond-max-depth branch returns
without error. -/
theorem c3_fallback_scanner_stub_bug :
    oracleC3.dirFind "/" = ("LISTING", none) ∧
    getAllConfigData ⟨true, true, 2⟩ oracleC3 "/" 0
      = ("", some (.generic "LISTING")) ∧
    getAllConfigData ⟨true, true, 2⟩ oracleC3 "/" 3 = ("", none) := by decide

/-- Claim C4, counterexample: for a plain push build with a present,
non-zero before revision, the only SCM call made is `Git.ListChanges`
with the AFTER revision; no call carries the before revision (which lines
142–145 compute but never use). -/
theorem c4_before_revision_counterexample :
    (getScmChanges oracleC4 buildC4).2.2 = [ScmCall.git "afterhash"] ∧
    beforeRef buildC4 = "beforehash" ∧
    ScmCall.git (beforeRef buildC4) ∉ (getScmChanges oracleC4 buildC4).2.2 := by
  decide

/-- Claim C4, amended: for every non-scheduled, non-pull-request build the
change-set resolver invokes the list-changes capability with only the
event's after-revision (the computed before-revision is unused). -/
theorem c4_list_changes_uses_after_only (o : Oracle) (b : Build)
    (h1 : (b.trigger == "@cron") = false)
    (h2 : strStartsWith b.ref "refs/pull/" = false) :
    (getScmChanges o b).2.2 = [ScmCall.git b.after] := by
  rw [getScmChanges]
  simp only [h1, h2, Bool.false_eq_true, if_false]
  split
  · rfl
  · rw [scmFinish]
    split <;> rfl

/-- Claim C4, witness for the amended theorem at the concrete build. -/
theorem c4_list_changes_uses_after_only_witness :
    ((buildC4.trigger == "@cron") = false) ∧
    (strStartsWith buildC4.ref "refs/pull/" = false) ∧
    (getScmChanges oracleC4 buildC4).2.2 = [ScmCall.git buildC4.after] :=
  ⟨by decide, by decide,
    c4_list_changes_uses_after_only oracleC4 buildC4 (by decide) (by decide)⟩

/-- Claim C5, counterexample: a scheduled build and a push build with an
empty diff produce the SAME `nil` sentinel from the change-set resolver —
the two cases are not distinguished by the returned value. -/
theorem c5_sentinel_counterexample :
    (getScmChanges baseOracle buildCron).1 = none ∧
    (getScmChanges oracleEmptyDiff buildPush).1 = none ∧
    (getScmChanges baseOracle buildCron).1
      = (getScmChanges oracleEmptyDiff buildPush).1 := by decide

/-- Claim C5, amended: the resolver returns the same `nil` sentinel for
scheduled triggers and for empty change lists; the caller distinguishes
scheduled builds by re-checking the trigger kind, not by the sentinel. -/
theorem c5_same_nil_sentinel (o o2 : Oracle) (b b2 : Build)
    (h1 : (b.trigger == "@cron") = true)
    (h2 : (b2.trigger == "@cron") = false)
    (h3 : strStartsWith b2.ref "refs/pull/" = false)
    (h4 : o2.gitChanges b2.after = ([], none)) :
    (getScmChanges o b).1 = none ∧ (getScmChanges o2 b2).1 = none := by
  constructor
  · rw [getScmChanges]
    simp only [h1, if_true]
    rfl
  · rw [getScmChanges]
    simp only [h2, h3, Bool.false_eq_true, if_false, h4]
    rfl

/-- Claim C5, witness for the amended theorem at concrete builds. -/
theorem c5_same_nil_sentinel_witness :
    (getScmChanges baseOracle buildCron).1 = none ∧
    (getScmChanges oracleEmptyDiff buildPush).1 = none :=
  c5_same_nil_sentinel baseOracle oracleEmptyDiff buildCron buildPush
    (by decide) (by decide) (by decide) (by decide)

/-- Claim C6: within one resolution request no candidate path is fetched
twice — for every concat flag, oracle, config basename and changed-file
list, the trace of candidate paths passed to fetch-and-validate across
all walks has no duplicates (the shared cache enforces this). -/
theorem c6_fetch_trace_nodup (concat : Bool)
    (contents : String → FetchOutcome) (cfgName : String)
    (changedFiles : List String) :
    ((scmConfigLoop concat contents cfgName changedFiles
        initWalkSt).2).trace.Nodup :=
  (scmConfigLoop_inv concat contents cfgName changedFiles
    initWalkSt walkInv_init).1

/-- Claim C7, counterexample: the cleanup pass is not idempotent — on
`"-------\n---"` one application yields `"----\n---"` (the regex match
stops before the seventh dash), and a second application collapses the
newly adjacent separators to `"----"`. -/
theorem c7_idempotence_counterexample :
    goCleanup (goCleanup "-------\n---") ≠ goCleanup "-------\n---" := by
  decide

/-- Claim C7, amended: the end-of-document-marker-stripping half of the
pass is idempotent (its output never contains `"..."`), but the
separator-collapsing half — and hence the combined pass — is not
idempotent in general. -/
theorem c7_strip_markers_idempotent (s : String) :
    stripDots (stripDots s) = stripDots s :=
  congrArg String.mk (replaceDots_idem s.data)

/-- Claim C8: with changed files `a/b/x.go` and `a/y.go`, concat enabled,
valid configs at `/a/b/.pipeline.yml` and `/a/.pipeline.yml` and none at
the root, `Resolve` returns exactly two separator-delimited documents with
the `a/b` config before the `a` config (each file walks upward in listed
order; the revisited `/a/.pipeline.yml` candidate is deduplicated). -/
theorem c8_concat_two_docs_ordered :
    find ⟨true, false, 2⟩ oracleC8 reqC8 = .config "---\nAB\n---\nA2\n" ∧
    countSeps "---\nAB\n---\nA2\n" = 2 := by decide

/-- Claim C9, counterexample: a fragment consisting of a single tab — a
whitespace-only string — is NOT dropped by the merge append (the trim
cutset is only space and newline), so the accumulator changes. -/
theorem c9_whitespace_fragment_counterexample :
    droneConfigAppend "" ["\t"] = "---\n\t\n" ∧
    ("---\n\t\n" : String) ≠ "" := by decide

/-- Claim C9, amended: appending an empty fragment, or one consisting only
of space and newline characters, leaves the accumulator unchanged;
fragments of other whitespace (tabs, carriage returns) are appended. -/
theorem c9_space_newline_fragment_noop (dc a : String)
    (h : ∀ c ∈ a.data, c = ' ' ∨ c = '\n') :
    droneConfigAppend dc [a] = dc := by
  have htrim : goTrim a " \n" = "" := by
    unfold goTrim
    have h1 : a.data.dropWhile (((" \n" : String).data.contains ·)) = [] := by
      rw [List.dropWhile_eq_nil_iff]
      intro x hx
      rcases h x hx with h' | h' <;> subst h' <;> decide
    rw [h1]
    rfl
  simp [droneConfigAppend, htrim]

/-- Claim C9, witness for the amended theorem at a concrete accumulator
and fragment. -/
theorem c9_space_newline_fragment_noop_witness :
    (∀ c ∈ (" \n " : String).data, c = ' ' ∨ c = '\n') ∧
    droneConfigAppend "x" [" \n "] = "x" :=
  ⟨by decide, c9_space_newline_fragment_noop "x" " \n " (by decide)⟩

/-- Claim C10: the cleanup removes every occurrence of `"..."` wherever it
appears — the stripped text never contains three consecutive dots, an
occurrence inside a YAML value is removed, and by definition the stripping
runs before the separator-collapsing pass. -/
theorem c10_strip_all_occurrences :
    (∀ s : String, hasDots3 (stripDots s).data = false) ∧
    stripDots "key: va...lue" = "key: value" ∧
    (∀ s : String, goCleanup s = String.mk (dedupScan (stripDots s).data)) :=
  ⟨fun s => hasDots3_replaceDots s.data, by decide, fun _ => rfl⟩

end DroneTreeConfig
